import Mathlib

/-!
Verification of the UniPiano backend audio-analysis pipeline.

The Python sources are embedded shallowly:
- `float` values computed exactly (loop counters, divisions, percentages) are
  modelled as `ℚ`; the machine integers as `ℤ`/`ℕ` (no overflow is reachable).
- fallible code (Python exceptions) is modelled with `Except String`.
- the database (asyncpg, table `audio_submissions`) is an association list from
  submission id to row; each SQL statement is one atomic step.

Sources embedded:
- `app/utils/audio_utils.py` (`AudioAnalyzer`): `detect_notes`,
  `compare_with_expected`, the overall-score computation of
  `analyze_audio_submission`.
- `backend/app/services/audio_service.py` (`AudioService`): `upload_audio_file`,
  `analyze_audio`, `get_detailed_feedback`.
- `app/api/v1/endpoints/audio.py`: the `analyze` and `feedback` endpoints with
  their `try/except Exception` wrappers (in Python, `fastapi.HTTPException`
  derives from `Exception`, so the 404 raised inside the `try` block is caught
  by the blanket handler and re-raised as a 500).
-/

/- ## Comparator: AudioAnalyzer.compare_with_expected -/

/-- Translation of the hit-counting loop of `compare_with_expected`:
`for i, expected in enumerate(expected_notes): if i < len(detected_notes) and
detected_notes[i] == expected: correct_notes += 1`. Walking both lists in
parallel counts exactly the indices of `expected` that are in bounds of
`detected` and match exactly. -/
def correct_notes : List String → List String → Nat
  | d :: ds, e :: es => (if d = e then 1 else 0) + correct_notes ds es
  | _, _ => 0

/-- Translation of `AudioAnalyzer.compare_with_expected`. Returns
`(accuracy, precision, recall)` as exact rationals (the Python floats).
The guards mirror the Python conditional expressions
`... if total_expected > 0 else 0` / `... if total_detected > 0 else 0`. -/
def compare_with_expected (detected_notes expected_notes : List String) : ℚ × ℚ × ℚ :=
  if expected_notes = [] then (0, 0, 0)
  else
    let hits : ℚ := correct_notes detected_notes expected_notes
    let total_expected : ℚ := expected_notes.length
    let total_detected : ℚ := detected_notes.length
    let accuracy : ℚ := if 0 < total_expected then hits / total_expected * 100 else 0
    let precision : ℚ := if 0 < total_detected then hits / total_detected * 100 else 0
    let recall_pct : ℚ := if 0 < total_expected then hits / total_expected * 100 else 0
    (accuracy, precision, recall_pct)

/- ## Scorer: overall score of AudioAnalyzer.analyze_audio_submission -/

/-- Python `int()` applied to a real value: truncation toward zero. -/
def pyInt (q : ℚ) : ℤ := if 0 ≤ q then ⌊q⌋ else ⌈q⌉

/-- Translation of the scorer of `analyze_audio_submission`:
`overall_score = (pitch_score + rhythm_score + timing_score) / 3` followed by
`int(overall_score)`. In the pipeline `rhythm_score = 85.0` and
`timing_score = 80.0` are fixed placeholders and `pitch_score` is the
comparator's accuracy. -/
def overall_score (pitch_score rhythm_score timing_score : ℚ) : ℤ :=
  pyInt ((pitch_score + rhythm_score + timing_score) / 3)

/-- The score the pipeline computes for a submission, as wired in
`analyze_audio_submission`: pitch accuracy from the comparator, placeholder
rhythm 85 and timing 80. -/
def analyze_audio_submission_score (detected_notes expected_notes : List String) : ℤ :=
  overall_score (compare_with_expected detected_notes expected_notes).1 85 80

/- ## Note Quantizer: AudioAnalyzer.detect_notes -/

/-- Fuel-driven binary logarithm on naturals: for `1 ≤ n ≤ fuel`,
`nlog2F fuel n = ⌊log2 n⌋`. The fuel keeps the recursion structural. -/
def nlog2F : ℕ → ℕ → ℕ
  | 0, _ => 0
  | fuel + 1, n => if n < 2 then 0 else nlog2F fuel (n / 2) + 1

/-- `⌊log2 n⌋` for `n ≥ 1` (0 below). -/
def nlog2 (n : ℕ) : ℕ := nlog2F n n

/-- Fuel-driven ceiling binary logarithm on naturals: for `2 ≤ n ≤ fuel + 1`,
`nclog2F fuel n = ⌈log2 n⌉`. -/
def nclog2F : ℕ → ℕ → ℕ
  | 0, _ => 0
  | fuel + 1, n => if n ≤ 1 then 0 else nclog2F fuel ((n + 1) / 2) + 1

/-- `⌈log2 n⌉` for `n ≥ 2` (0 below). -/
def nclog2 (n : ℕ) : ℕ := nclog2F n n

/-- `⌊log2 q⌋` of a positive rational, computably (shown equal to `Int.log 2`
below). -/
def qlog2 (q : ℚ) : ℤ :=
  if 1 ≤ q then (nlog2 ⌊q⌋₊ : ℤ) else -(nclog2 ⌈q⁻¹⌉₊ : ℤ)

/-- Translation of `int(round(librosa.hz_to_midi(pitch)))`:
`librosa.hz_to_midi(f) = 69 + 12·log2(f/440)`, rounded to the nearest integer.
Computed exactly over `ℚ` as `69 + ⌊(⌊log2((f/440)^24)⌋ + 1) / 2⌋`; the theorem
for C6 proves this equal to `round (69 + 12 · logb 2 (f/440))` over `ℝ` for
every positive rational frequency. (Python `round` is half-to-even, but a tie
would need `12·log2(f/440)` to be an exact half-integer, impossible for
rational `f`, so nearest-integer rounding is the faithful embedding.) -/
def hz_to_midi_round (f : ℚ) : ℤ :=
  69 + (qlog2 ((f / 440) ^ 24) + 1) / 2

/-- The twelve pitch-class names used by `librosa.midi_to_note`
(unicode sharps, default `unicode=True`). -/
def noteNames : List String :=
  ["C", "C♯", "D", "D♯", "E", "F", "F♯", "G", "G♯", "A", "A♯", "B"]

/-- Translation of `librosa.midi_to_note(m)`: pitch class `m mod 12` and
octave `m // 12 - 1` (MIDI 60 ↦ "C4", MIDI 69 ↦ "A4"). -/
def midi_to_note (m : ℤ) : String :=
  noteNames.getD (m % 12).toNat "C" ++ toString (m / 12 - 1)

/-- Translation of `AudioAnalyzer.detect_notes`: for each pitch estimate,
if `pitch > 0` append the note name of the rounded MIDI number, otherwise
emit nothing. -/
def detect_notes : List ℚ → List String
  | [] => []
  | pitch :: rest =>
    if 0 < pitch then midi_to_note (hz_to_midi_round pitch) :: detect_notes rest
    else detect_notes rest

/- ## Python values and Python repr (str() of the analysis dict) -/

mutual
inductive PyVal where
  | int (n : ℤ)
  | str (s : String)
  | list (xs : PyList)
  | dict (entries : PyDict)
inductive PyList where
  | nil
  | cons (hd : PyVal) (tl : PyList)
inductive PyDict where
  | nil
  | cons (key : String) (entry : PyVal) (tl : PyDict)
end

/-- The single-quote character used by Python repr of strings. -/
def squote : Char := Char.ofNat 39

/-- Opening brace of a Python dict repr / JSON object. -/
def lbrace : Char := Char.ofNat 123

/-- Closing brace of a Python dict repr / JSON object. -/
def rbrace : Char := Char.ofNat 125

/-- The double-quote character that delimits JSON strings. -/
def dquote : Char := Char.ofNat 34

/-- The backslash escape character. -/
def bslash : Char := Char.ofNat 92

mutual
/-- Translation of Python `str()` on the analysis payload: dict/list/str/int
repr with single-quoted strings and ", " separators (no value stored by this
code base contains quotes or escapes, so plain quoting is exact). -/
def pyStr : PyVal → String
  | .int n => toString n
  | .str s => String.mk [squote] ++ s ++ String.mk [squote]
  | .list xs => "[" ++ pyStrList xs ++ "]"
  | .dict es => String.mk [lbrace] ++ pyStrDict es ++ String.mk [rbrace]
/-- Comma-separated repr of the elements of a Python list. -/
def pyStrList : PyList → String
  | .nil => ""
  | .cons x .nil => pyStr x
  | .cons x tl => pyStr x ++ ", " ++ pyStrList tl
/-- Comma-separated repr of the key/value pairs of a Python dict. -/
def pyStrDict : PyDict → String
  | .nil => ""
  | .cons k v .nil => String.mk [squote] ++ k ++ String.mk [squote] ++ ": " ++ pyStr v
  | .cons k v tl =>
      String.mk [squote] ++ k ++ String.mk [squote] ++ ": " ++ pyStr v ++ ", " ++ pyStrDict tl
end

/-- Builds a `PyList` from a Lean list. -/
def plist : List PyVal → PyList
  | [] => .nil
  | x :: xs => .cons x (plist xs)

/-- Builds a `PyDict` from a Lean association list (Python dicts preserve
insertion order). -/
def pdict : List (String × PyVal) → PyDict
  | [] => .nil
  | (k, v) :: tl => .cons k v (pdict tl)

/-- Dictionary lookup, first match (Python dict keys here are unique). -/
def pyDictGet : PyDict → String → Option PyVal
  | .nil, _ => none
  | .cons k v tl, key => if k = key then some v else pyDictGet tl key

/-- Python subscript `v[key]` on a dict value. -/
def pyGet (v : PyVal) (key : String) : Option PyVal :=
  match v with
  | .dict es => pyDictGet es key
  | _ => none

/-- Python subscript returning an int, as in `analysis_result['overall_score']`. -/
def pyGetInt (v : PyVal) (key : String) : Option ℤ :=
  match pyGet v key with
  | some (.int n) => some n
  | _ => none

/-- Length of a `PyList`. -/
def pyListLength : PyList → ℕ
  | .nil => 0
  | .cons _ tl => pyListLength tl + 1

/- ## json.loads (RFC 8259 parser, the shape the stdlib json module accepts) -/

inductive JVal where
  | null
  | bool (b : Bool)
  | num (n : ℤ)
  | str (s : String)
  | arr (xs : List JVal)
  | obj (entries : List (String × JVal))

/-- JSON insignificant whitespace: space, tab, newline, carriage return. -/
def isWsChar (c : Char) : Bool :=
  c = ' ' || c = Char.ofNat 9 || c = Char.ofNat 10 || c = Char.ofNat 13

/-- Drops leading JSON whitespace. -/
def skipWs : List Char → List Char
  | [] => []
  | c :: cs => if isWsChar c then skipWs cs else c :: cs

/-- Body of a JSON string after the opening double quote; escape sequences are
consumed (the escaped character is kept raw, enough for this code base where no
stored string contains escapes). Returns the content and the remainder. -/
def parseStrChars : List Char → Option (List Char × List Char)
  | [] => none
  | c :: cs =>
    if c = dquote then some ([], cs)
    else if c = bslash then
      match cs with
      | [] => none
      | e :: cs2 => (parseStrChars cs2).map (fun p => (e :: p.1, p.2))
    else (parseStrChars cs).map (fun p => (c :: p.1, p.2))

/-- Splits the longest leading run of ASCII digits. -/
def parseDigits : List Char → List Char × List Char
  | [] => ([], [])
  | c :: cs =>
    if c.isDigit then
      let p := parseDigits cs
      (c :: p.1, p.2)
    else ([], c :: cs)

/-- Decimal value of a digit run. -/
def digitsToNat : ℕ → List Char → ℕ
  | acc, [] => acc
  | acc, c :: cs => digitsToNat (acc * 10 + (c.toNat - 48)) cs

/-- True when the remainder starts a fraction or exponent (this embedding
covers the integer numerals the repository produces; fractional numerals make
the parse fail rather than silently misparse). -/
def startsFrac : List Char → Bool
  | [] => false
  | d :: _ => d = '.' || d = 'e' || d = 'E'

/-- JSON integer numeral with optional leading minus. -/
def parseIntNum (cs : List Char) : Option (ℤ × List Char) :=
  match cs with
  | [] => none
  | c :: rest =>
    if c = '-' then
      match parseDigits rest with
      | ([], _) => none
      | (ds, r2) => if startsFrac r2 then none else some (-(digitsToNat 0 ds : ℤ), r2)
    else if c.isDigit then
      match parseDigits (c :: rest) with
      | (ds, r2) => if startsFrac r2 then none else some ((digitsToNat 0 ds : ℤ), r2)
    else none

/-- Consumes an expected literal character sequence. -/
def expectChars : List Char → List Char → Option (List Char)
  | [], cs => some cs
  | _ :: _, [] => none
  | p :: ps, c :: cs => if c = p then expectChars ps cs else none

mutual
/-- Recursive-descent JSON value parser (fuel keeps recursion structural; the
caller supplies more fuel than the input length). After an opening brace the
next non-whitespace character must be a double quote or a closing brace — a
single-quoted Python repr therefore fails here, exactly as `json.loads` raises
on it. -/
def parseJVal : ℕ → List Char → Option (JVal × List Char)
  | 0, _ => none
  | fuel + 1, cs =>
    match skipWs cs with
    | [] => none
    | c :: rest =>
      if c = lbrace then
        match skipWs rest with
        | d :: r2 =>
            if d = rbrace then some (.obj [], r2)
            else (parseObjMembers fuel (d :: r2)).map (fun p => (.obj p.1, p.2))
        | [] => none
      else if c = '[' then
        match skipWs rest with
        | d :: r2 =>
            if d = ']' then some (.arr [], r2)
            else (parseArrElems fuel (d :: r2)).map (fun p => (.arr p.1, p.2))
        | [] => none
      else if c = dquote then
        (parseStrChars rest).map (fun p => (.str (String.mk p.1), p.2))
      else if c = 't' then (expectChars ['r', 'u', 'e'] rest).map (fun r => (.bool true, r))
      else if c = 'f' then (expectChars ['a', 'l', 's', 'e'] rest).map (fun r => (.bool false, r))
      else if c = 'n' then (expectChars ['u', 'l', 'l'] rest).map (fun r => (.null, r))
      else (parseIntNum (c :: rest)).map (fun p => (.num p.1, p.2))
/-- Members of a JSON object after the opening brace (nonempty case): each key
must be a double-quoted string followed by a colon. -/
def parseObjMembers : ℕ → List Char → Option (List (String × JVal) × List Char)
  | 0, _ => none
  | fuel + 1, cs =>
    match skipWs cs with
    | [] => none
    | c :: rest =>
      if c = dquote then
        match parseStrChars rest with
        | none => none
        | some (k, r1) =>
          match skipWs r1 with
          | [] => none
          | d :: r2 =>
            if d = ':' then
              match parseJVal fuel r2 with
              | none => none
              | some (v, r3) =>
                match skipWs r3 with
                | [] => none
                | e :: r4 =>
                  if e = ',' then
                    (parseObjMembers fuel r4).map (fun p => ((String.mk k, v) :: p.1, p.2))
                  else if e = rbrace then some ([(String.mk k, v)], r4)
                  else none
            else none
      else none
/-- Elements of a JSON array after the opening bracket (nonempty case). -/
def parseArrElems : ℕ → List Char → Option (List JVal × List Char)
  | 0, _ => none
  | fuel + 1, cs =>
    match parseJVal fuel cs with
    | none => none
    | some (v, r1) =>
      match skipWs r1 with
      | [] => none
      | e :: r2 =>
        if e = ',' then (parseArrElems fuel r2).map (fun p => (v :: p.1, p.2))
        else if e = ']' then some ([v], r2)
        else none
end

/-- Translation of `json.loads`: parse one JSON value and require only
whitespace after it; any syntax error raises (modelled as `none`). -/
def json_loads (s : String) : Option JVal :=
  match parseJVal (s.length + 1) s.toList with
  | some (v, rest) => if skipWs rest = [] then some v else none
  | none => none

/- ## Submission store (table audio_submissions) and AudioService -/

structure Submission where
  user_id : String
  exercise_id : String
  file_path : String
  status : String
  feedback : Option String
  score : Option ℤ
  created_at : ℕ
  updated_at : Option ℕ

/-- The submission store: rows keyed by submission id. -/
abbrev DB := List (String × Submission)

/-- `SELECT * FROM audio_submissions WHERE id = $1` (first match). -/
def dbGet : DB → String → Option Submission
  | [], _ => none
  | (k, v) :: rest, sid => if k = sid then some v else dbGet rest sid

/-- `UPDATE audio_submissions SET ... WHERE id = $n`: one atomic statement,
a no-op when no row matches. -/
def dbSet (db : DB) (sid : String) (f : Submission → Submission) : DB :=
  db.map (fun kv => if kv.1 = sid then (kv.1, f kv.2) else kv)

/-- The fixed analysis payload built by `AudioService.analyze_audio` ("For now,
return mock analysis"): a Python dict literal, independent of the submission. -/
def analysis_result : PyVal :=
  .dict (pdict
    [("tempo", .dict (pdict
        [("detected", .int 120), ("target", .int 120), ("accuracy", .int 95)])),
     ("pitch_accuracy", .dict (pdict
        [("correct_notes", .int 85), ("total_notes", .int 100),
         ("accuracy_percentage", .int 85)])),
     ("rhythm_accuracy", .dict (pdict
        [("timing_score", .int 88), ("consistency", .int 92)])),
     ("overall_score", .int 87),
     ("feedback", .str "Great job! Your timing is excellent. Focus on hitting the correct notes more consistently."),
     ("suggestions", .list (plist
        [.str "Practice scales to improve finger positioning",
         .str "Use a metronome to maintain steady tempo",
         .str "Focus on the middle section where most errors occurred"]))])

/-- Translation of `AudioService.upload_audio_file`. The scratch file
`tmpName` is created by `tempfile.NamedTemporaryFile(delete=False)`; on the
success path the INSERT (status 'pending', created_at now) runs and then
`os.unlink` removes the scratch file; when the INSERT raises
(`insertOk = false`) the `except` clause re-raises without running the
unlink. `tempFiles` is the multiset of scratch files currently on disk. -/
def upload_audio_file (tempFiles : List String) (db : DB)
    (tmpName filename user_id exercise_id submission_id : String)
    (insertOk : Bool) (now : ℕ) :
    Except String (String × String × String) × List String × DB :=
  let tempFiles1 := tmpName :: tempFiles
  if insertOk then
    let db1 : DB := (submission_id,
      { user_id := user_id, exercise_id := exercise_id, file_path := filename,
        status := "pending", feedback := none, score := none,
        created_at := now, updated_at := none }) :: db
    (.ok (submission_id, filename, "uploaded"), tempFiles1.erase tmpName, db1)
  else
    (.error "Failed to upload audio: insert failed", tempFiles1, db)

/-- Translation of `AudioService.analyze_audio`. Returns the call's result,
the store after the call, and the status values of the UPDATE statements that
committed, in order. `updateOk` models whether the success-path UPDATE commits
or raises (a store failure); whenever the body raises — submission missing, or
that UPDATE raising — the `except` clause runs the failed-status UPDATE and
re-raises a single normalized error. -/
def analyze_audio (db : DB) (submission_id : String) (updateOk : Bool) (now : ℕ) :
    Except String PyVal × DB × List String :=
  match dbGet db submission_id with
  | none =>
      (.error "Failed to analyze audio: Submission not found",
       dbSet db submission_id (fun s => { s with status := "failed", updated_at := some now }),
       ["failed"])
  | some _ =>
      if updateOk then
        (.ok analysis_result,
         dbSet db submission_id (fun s =>
           { s with status := "analyzed",
                    feedback := some (pyStr analysis_result),
                    score := pyGetInt analysis_result "overall_score",
                    updated_at := some now }),
         ["analyzed"])
      else
        (.error "Failed to analyze audio: update failed",
         dbSet db submission_id (fun s => { s with status := "failed", updated_at := some now }),
         ["failed"])

inductive FeedbackResp where
  | notReady (status : String) (message : String)
  | ready (score : Option ℤ) (analysis : JVal) (created_at : ℕ) (updated_at : Option ℕ)

/-- Translation of `AudioService.get_detailed_feedback`: not-found raises; a
submission whose status is not 'analyzed' yields
`{status, message: "Analysis not yet complete"}`; otherwise the stored
`feedback` string is passed to `json.loads` (empty/None feedback yields `{}`),
and a parse error propagates to the blanket `except`, which re-raises. -/
def get_detailed_feedback (db : DB) (submission_id : String) : Except String FeedbackResp :=
  match dbGet db submission_id with
  | none => .error "Failed to get feedback: Submission not found"
  | some sub =>
    if sub.status ≠ "analyzed" then
      .ok (.notReady sub.status "Analysis not yet complete")
    else
      match sub.feedback with
      | none => .ok (.ready sub.score (.obj []) sub.created_at sub.updated_at)
      | some fs =>
        match json_loads fs with
        | some j => .ok (.ready sub.score j sub.created_at sub.updated_at)
        | none => .error "Failed to get feedback: stored feedback is not valid JSON"

/- ## API endpoints (app/api/v1/endpoints/audio.py) -/

inductive PyExc where
  | http (status_code : ℕ) (detail : String)
  | plain (msg : String)

/-- Python `str(e)`: starlette's `HTTPException.__str__` is
"{status_code}: {detail}"; a plain exception prints its message. -/
def pyExcStr : PyExc → String
  | .http code detail => toString code ++ ": " ++ detail
  | .plain msg => msg

structure AnalyzeResp where
  success : Bool
  analysis : PyVal
  message : String

/-- Translation of the `POST /analyze/{submission_id}` endpoint. The ownership
check raises `HTTPException(404, "Submission not found")` inside the `try`
block; since `HTTPException` derives from `Exception`, the blanket
`except Exception` catches it (and any service error) and re-raises
`HTTPException(500, str(e))` — so every error leaves as a 500. -/
def analyze_audio_endpoint (db : DB) (current_user_id submission_id : String)
    (updateOk : Bool) (now : ℕ) :
    Except (ℕ × String) AnalyzeResp × DB :=
  match dbGet db submission_id with
  | none => (.error (500, pyExcStr (.http 404 "Submission not found")), db)
  | some sub =>
    if sub.user_id = current_user_id then
      match analyze_audio db submission_id updateOk now with
      | (.ok v, db2, _) =>
          (.ok { success := true, analysis := v, message := "Audio analysis completed" }, db2)
      | (.error m, db2, _) => (.error (500, pyExcStr (.plain m)), db2)
    else (.error (500, pyExcStr (.http 404 "Submission not found")), db)

/-- Translation of the `GET /feedback/{submission_id}` endpoint, with the same
blanket `except Exception` that converts the 404 into a 500. -/
def feedback_endpoint (db : DB) (current_user_id submission_id : String) :
    Except (ℕ × String) FeedbackResp :=
  match dbGet db submission_id with
  | none => .error (500, pyExcStr (.http 404 "Submission not found"))
  | some sub =>
    if sub.user_id = current_user_id then
      match get_detailed_feedback db submission_id with
      | .ok f => .ok f
      | .error m => .error (500, pyExcStr (.plain m))
    else .error (500, pyExcStr (.http 404 "Submission not found"))

/-- A pending submission as `upload_audio_file` creates it. -/
def sub0 : Submission :=
  { user_id := "u1", exercise_id := "e1", file_path := "take1.mp3",
    status := "pending", feedback := none, score := none,
    created_at := 0, updated_at := none }

/-- A one-row store holding the pending submission `"s1"`. -/
def db0 : DB := [("s1", sub0)]

/- ## Interleaving model of two concurrent analyze calls (same submission) -/

structure ProcState where
  fetched : Bool
  found : Bool
  done : Bool

structure Sys where
  db : DB
  pa : ProcState
  pb : ProcState
  writes : List String
  overlap : Bool

/-- A call is in flight between its SELECT and its terminal UPDATE. -/
def inFlight (p : ProcState) : Bool := p.fetched && !p.done

/-- One atomic database statement of a single `analyze_audio` call (the body
of `analyze_audio` above, split at its `await` points): first the SELECT, then
the terminal UPDATE; a finished call does nothing. The success-path UPDATE is
taken to commit (`updateOk = true` in `analyze_audio`). -/
def stepProc (sid : String) (now : ℕ) (db : DB) (p : ProcState) :
    DB × ProcState × List String :=
  if !p.fetched then
    (db, { p with fetched := true, found := (dbGet db sid).isSome }, [])
  else if !p.done then
    if p.found then
      (dbSet db sid (fun s =>
        { s with status := "analyzed", feedback := some (pyStr analysis_result),
                 score := pyGetInt analysis_result "overall_score",
                 updated_at := some now }),
       { p with done := true }, ["analyzed"])
    else
      (dbSet db sid (fun s => { s with status := "failed", updated_at := some now }),
       { p with done := true }, ["failed"])
  else (db, p, [])

/-- Advances the process chosen by the scheduler by one atomic statement and
latches whether both calls were ever in flight at once. -/
def schedStep (sid : String) (now : ℕ) (sys : Sys) (pickA : Bool) : Sys :=
  let next :=
    if pickA then
      let r := stepProc sid now sys.db sys.pa
      { sys with db := r.1, pa := r.2.1, writes := sys.writes ++ r.2.2 }
    else
      let r := stepProc sid now sys.db sys.pb
      { sys with db := r.1, pb := r.2.1, writes := sys.writes ++ r.2.2 }
  { next with overlap := next.overlap || (inFlight next.pa && inFlight next.pb) }

/-- Runs two concurrent `analyze_audio` calls on submission `sid` under a
scheduler choice sequence (true = advance call A, false = call B). -/
def runSched (sid : String) (now : ℕ) (sched : List Bool) (sys : Sys) : Sys :=
  sched.foldl (schedStep sid now) sys

/-- Both calls at their start, nothing written. -/
def initSys (db : DB) : Sys :=
  { db := db, pa := ⟨false, false, false⟩, pb := ⟨false, false, false⟩,
    writes := [], overlap := false }

/-- Invariant of the two-call interleaving on the store `db0`: the row for
`"s1"` persists; its status is 'pending' until the first terminal write and
'analyzed' afterwards; a call that has fetched has found the row; and the
durable write trace holds one 'analyzed' entry per finished call. -/
def C9Inv (sys : Sys) : Prop :=
  (dbGet sys.db "s1").isSome = true
  ∧ ((dbGet sys.db "s1").map Submission.status = some "pending"
        ∧ sys.pa.done = false ∧ sys.pb.done = false
      ∨ (dbGet sys.db "s1").map Submission.status = some "analyzed"
        ∧ (sys.pa.done = true ∨ sys.pb.done = true))
  ∧ (sys.pa.fetched = false → sys.pa.done = false)
  ∧ (sys.pb.fetched = false → sys.pb.done = false)
  ∧ (sys.pa.fetched = true → sys.pa.found = true)
  ∧ (sys.pb.fetched = true → sys.pb.found = true)
  ∧ sys.writes = List.replicate
      ((if sys.pa.done then 1 else 0) + (if sys.pb.done then 1 else 0)) "analyzed"

/- ## Theorems -/

/-- Counting the survivors of a filter over `range (n+1)` splits into the head
index 0 and the shifted tail indices. -/
theorem length_filter_range_succ (P : ℕ → Bool) (n : ℕ) :
    ((List.range (n + 1)).filter P).length
      = (if P 0 then 1 else 0) + ((List.range n).filter (fun i => P (i + 1))).length := by
  rw [List.range_succ_eq_map, List.filter_cons, List.filter_map]
  cases h : P 0 <;>
    simp [h, Function.comp_def, Nat.succ_eq_add_one, Nat.add_comm]

/-- C1. Comparator correctness: with a nonempty expected list, a hit is counted
at index `i` of `expected` exactly when `i` is in bounds of `detected` and the
symbols agree exactly; accuracy = recall = hits/len(expected)·100; precision =
hits/len(detected)·100 and 0 for an empty detected list; and an empty expected
list yields exactly (0, 0, 0) with no exception. -/
theorem compare_with_expected_correct (detected expected : List String) :
    (expected = [] → compare_with_expected detected expected = (0, 0, 0))
    ∧ (expected ≠ [] →
        (compare_with_expected detected expected).1
            = (correct_notes detected expected : ℚ) / expected.length * 100
        ∧ (compare_with_expected detected expected).2.2
            = (compare_with_expected detected expected).1
        ∧ (detected = [] → (compare_with_expected detected expected).2.1 = 0)
        ∧ (detected ≠ [] →
            (compare_with_expected detected expected).2.1
              = (correct_notes detected expected : ℚ) / detected.length * 100))
    ∧ correct_notes detected expected
        = ((List.range expected.length).filter
            (fun i => decide (i < detected.length)
              && decide (detected.getD i "" = expected.getD i ""))).length := by
  refine ⟨fun he => by simp [compare_with_expected, he], fun he => ?_, ?_⟩
  · have hlen : (0 : ℚ) < expected.length := by
      have : expected.length ≠ 0 := by simpa [List.length_eq_zero] using he
      exact_mod_cast Nat.pos_of_ne_zero this
    refine ⟨?_, ?_, ?_, ?_⟩
    · simp [compare_with_expected, he, hlen]
    · cases hd : detected with
      | nil => simp [compare_with_expected, he, hlen]
      | cons a as =>
          have hdl : (0 : ℚ) < detected.length := by
            rw [hd]; exact_mod_cast Nat.succ_pos as.length
          simp [compare_with_expected, he, hlen, hd ▸ hdl]
    · intro hd; simp [compare_with_expected, he, hlen, hd]
    · intro hd
      have hdl : (0 : ℚ) < detected.length := by
        have : detected.length ≠ 0 := by simpa [List.length_eq_zero] using hd
        exact_mod_cast Nat.pos_of_ne_zero this
      simp [compare_with_expected, he, hlen, hdl]
  · induction expected generalizing detected with
    | nil => cases detected <;> rfl
    | cons e es ih =>
        cases detected with
        | nil =>
            have h0 : correct_notes [] (e :: es) = 0 := rfl
            rw [h0]
            symm
            rw [List.length_eq_zero]
            refine List.filter_eq_nil_iff.mpr fun a _ => by simp
        | cons d ds =>
            rw [show (e :: es).length = es.length + 1 from rfl, length_filter_range_succ]
            simp only [List.getD_cons_succ, List.getD_cons_zero, List.length_cons,
              Nat.add_lt_add_iff_right]
            rw [← ih ds]
            by_cases hde : d = e
            · simp [correct_notes, hde]
            · simp [correct_notes, hde]

/-- The C1 theorem applied at the spec's own example
`expected = ["C4","D4","E4"]`, `detected = ["C4","X4"]` (hits = 1,
accuracy = recall = 100/3, precision = 50). -/
theorem compare_with_expected_correct_witness :
    (compare_with_expected ["C4", "X4"] ["C4", "D4", "E4"]).1
        = (correct_notes ["C4", "X4"] ["C4", "D4", "E4"] : ℚ)
            / ((["C4", "D4", "E4"] : List String).length : ℚ) * 100
    ∧ compare_with_expected ["C4", "X4"] ["C4", "D4", "E4"] = (100 / 3, 50, 100 / 3)
    ∧ compare_with_expected ["C4", "X4"] [] = (0, 0, 0) := by
  have h := compare_with_expected_correct ["C4", "X4"] ["C4", "D4", "E4"]
  have hne : (["C4", "D4", "E4"] : List String) ≠ [] := by decide
  refine ⟨(h.2.1 hne).1, ?_, (compare_with_expected_correct ["C4", "X4"] []).1 rfl⟩
  have hc : correct_notes ["C4", "X4"] ["C4", "D4", "E4"] = 1 := by decide
  norm_num [compare_with_expected, hc, hne]

/-- C2. Scorer correctness and bounds: for sub-scores in [0,100] the overall
score is `⌊(p + r + t) / 3⌋`, an integer in [0,100]. -/
theorem overall_score_correct (p r t : ℚ)
    (hp0 : 0 ≤ p) (hp1 : p ≤ 100) (hr0 : 0 ≤ r) (hr1 : r ≤ 100)
    (ht0 : 0 ≤ t) (ht1 : t ≤ 100) :
    overall_score p r t = ⌊(p + r + t) / 3⌋
    ∧ 0 ≤ overall_score p r t ∧ overall_score p r t ≤ 100 := by
  have hsum0 : (0 : ℚ) ≤ (p + r + t) / 3 := by positivity
  have heq : overall_score p r t = ⌊(p + r + t) / 3⌋ := by
    simp [overall_score, pyInt, hsum0]
  refine ⟨heq, ?_, ?_⟩
  · rw [heq]; exact Int.floor_nonneg.mpr hsum0
  · rw [heq]
    have hle : (p + r + t) / 3 ≤ 100 := by linarith
    calc ⌊(p + r + t) / 3⌋ ≤ ⌊(100 : ℚ)⌋ := Int.floor_le_floor hle
      _ = 100 := by norm_num

/-- The C2 theorem applied at the pipeline's own constants
`p = 85, r = 85, t = 80` (`⌊250/3⌋ = 83`). -/
theorem overall_score_correct_witness :
    overall_score 85 85 80 = ⌊(85 + 85 + 80 : ℚ) / 3⌋
    ∧ 0 ≤ overall_score 85 85 80 ∧ overall_score 85 85 80 ≤ 100
    ∧ overall_score 85 85 80 = 83 := by
  have h := overall_score_correct 85 85 80 (by norm_num) (by norm_num) (by norm_num)
    (by norm_num) (by norm_num) (by norm_num)
  refine ⟨h.1, h.2.1, h.2.2, ?_⟩
  rw [h.1]
  refine Int.floor_eq_iff.mpr ⟨by push_cast; norm_num, by push_cast; norm_num⟩

/-- Correctness of the fuelled floor-log2: enough fuel gives the
2-power sandwich. -/
theorem nlog2F_correct (fuel : ℕ) :
    ∀ n : ℕ, 1 ≤ n → n ≤ fuel → 2 ^ nlog2F fuel n ≤ n ∧ n < 2 ^ (nlog2F fuel n + 1) := by
  induction fuel with
  | zero => intro n h1 h2; omega
  | succ fuel ih =>
      intro n h1 h2
      by_cases h : n < 2
      · have h0 : nlog2F (fuel + 1) n = 0 := by simp [nlog2F, h]
        rw [h0]
        norm_num
        omega
      · have hstep : nlog2F (fuel + 1) n = nlog2F fuel (n / 2) + 1 := by simp [nlog2F, h]
        rw [hstep]
        obtain ⟨ha, hb⟩ := ih (n / 2) (by omega) (by omega)
        set k := nlog2F fuel (n / 2) with hk
        have e1 : (2 : ℕ) ^ (k + 1) = 2 * 2 ^ k := by rw [pow_succ]; ring
        have e2 : (2 : ℕ) ^ (k + 1 + 1) = 4 * 2 ^ k := by rw [pow_succ, pow_succ]; ring
        omega

/-- On its intended domain, `nlog2` is `Nat.log 2`. -/
theorem nlog2_eq_log {n : ℕ} (hn : 1 ≤ n) : nlog2 n = Nat.log 2 n := by
  obtain ⟨ha, hb⟩ := nlog2F_correct n n hn le_rfl
  exact (Nat.log_eq_of_pow_le_of_lt_pow ha hb).symm

/-- Correctness of the fuelled ceiling-log2. -/
theorem nclog2F_correct (fuel : ℕ) :
    ∀ n : ℕ, 2 ≤ n → n ≤ fuel + 1 →
      1 ≤ nclog2F fuel n ∧ n ≤ 2 ^ nclog2F fuel n ∧ 2 ^ (nclog2F fuel n - 1) < n := by
  induction fuel with
  | zero => intro n h1 h2; omega
  | succ fuel ih =>
      intro n h1 h2
      have hstep : nclog2F (fuel + 1) n = nclog2F fuel ((n + 1) / 2) + 1 := by
        simp [nclog2F, show ¬ n ≤ 1 by omega]
      rw [hstep]
      by_cases hsmall : (n + 1) / 2 ≤ 1
      · have hz : nclog2F fuel ((n + 1) / 2) = 0 := by
          cases fuel <;> simp [nclog2F, hsmall]
        rw [hz]
        norm_num
        omega
      · obtain ⟨hc1, hca, hcb⟩ := ih ((n + 1) / 2) (by omega) (by omega)
        set c := nclog2F fuel ((n + 1) / 2) with hc
        simp only [Nat.add_sub_cancel]
        have e1 : (2 : ℕ) ^ (c + 1) = 2 * 2 ^ c := by rw [pow_succ]; ring
        have e2 : (2 : ℕ) ^ c = 2 * 2 ^ (c - 1) := by
          conv_lhs => rw [show c = (c - 1) + 1 by omega]
          rw [pow_succ]; ring
        omega

/-- On its intended domain, `nclog2` is `Nat.clog 2`. -/
theorem nclog2_eq_clog {n : ℕ} (hn : 2 ≤ n) : nclog2 n = Nat.clog 2 n := by
  obtain ⟨h1, ha, hb⟩ := nclog2F_correct n n hn (by omega)
  have hle : Nat.clog 2 n ≤ nclog2 n := (Nat.le_pow_iff_clog_le one_lt_two).mp ha
  have hlt : nclog2 n - 1 < Nat.clog 2 n := (Nat.pow_lt_iff_lt_clog one_lt_two).mp hb
  omega

/-- The computable `qlog2` agrees with Mathlib's `Int.log 2` on positive
rationals. -/
theorem qlog2_eq_int_log {q : ℚ} (hq : 0 < q) : qlog2 q = Int.log 2 q := by
  unfold qlog2
  split_ifs with h1
  · rw [Int.log_of_one_le_right _ h1]
    have hfl : 1 ≤ ⌊q⌋₊ := Nat.le_floor (by exact_mod_cast h1)
    exact_mod_cast congrArg (Nat.cast (R := ℤ)) (nlog2_eq_log hfl)
  · push_neg at h1
    rw [Int.log_of_right_le_one _ h1.le]
    have hinv : (1 : ℚ) < q⁻¹ := one_lt_inv_iff₀.mpr ⟨hq, h1⟩
    have h2 : 2 ≤ ⌈q⁻¹⌉₊ := by
      have := Nat.lt_ceil.mpr (show ((1 : ℕ) : ℚ) < q⁻¹ by exact_mod_cast hinv)
      omega
    rw [nclog2_eq_clog h2]

/-- `Int.log` is invariant under the cast `ℚ → ℝ` on positive rationals. -/
theorem int_log_ratCast {q : ℚ} (hq : 0 < q) : Int.log 2 ((q : ℝ)) = Int.log 2 q := by
  have hqR : (0 : ℝ) < (q : ℝ) := by exact_mod_cast hq
  apply le_antisymm
  · have hlt : q < ((2 : ℕ) : ℚ) ^ (Int.log 2 q + 1) := Int.lt_zpow_succ_log_self one_lt_two q
    have hltR : (q : ℝ) < ((2 : ℕ) : ℝ) ^ (Int.log 2 q + 1) := by
      have h' := (Rat.cast_lt (K := ℝ)).mpr hlt
      rwa [Rat.cast_zpow, Rat.cast_natCast] at h'
    have := (Int.lt_zpow_iff_log_lt one_lt_two hqR).mp hltR
    omega
  · have hle : ((2 : ℕ) : ℚ) ^ Int.log 2 q ≤ q := Int.zpow_log_le_self one_lt_two hq
    have hleR : ((2 : ℕ) : ℝ) ^ Int.log 2 q ≤ (q : ℝ) := by
      have h' := (Rat.cast_le (K := ℝ)).mpr hle
      rwa [Rat.cast_zpow, Rat.cast_natCast] at h'
    exact (Int.zpow_le_iff_le_log one_lt_two hqR).mp hleR

/-- The floor of the real base-2 logarithm of a positive rational is `qlog2`. -/
theorem floor_logb_eq_qlog2 {q : ℚ} (hq : 0 < q) :
    ⌊Real.logb 2 (q : ℝ)⌋ = qlog2 q := by
  rw [show (2 : ℝ) = ((2 : ℕ) : ℝ) by norm_num,
    Real.floor_logb_natCast (le_of_lt (by exact_mod_cast hq)),
    int_log_ratCast hq, qlog2_eq_int_log hq]

/-- The exact rational computation of `hz_to_midi_round` equals rounding the
real-valued `69 + 12·log2(f/440)` of `librosa.hz_to_midi`. -/
theorem hz_to_midi_round_eq_round {f : ℚ} (hf : 0 < f) :
    hz_to_midi_round f = round ((69 : ℝ) + 12 * Real.logb 2 ((f : ℝ) / 440)) := by
  have hq24 : (0 : ℚ) < (f / 440) ^ 24 := by positivity
  set L : ℤ := qlog2 ((f / 440) ^ 24) with hL
  have h24 : Real.logb 2 ((((f / 440) ^ 24 : ℚ)) : ℝ)
      = 24 * Real.logb 2 ((f : ℝ) / 440) := by
    push_cast
    rw [Real.logb_pow]
    norm_num
  have hfl : ⌊(24 : ℝ) * Real.logb 2 ((f : ℝ) / 440)⌋ = L := by
    rw [← h24, floor_logb_eq_qlog2 hq24, hL]
  have hle : (L : ℝ) ≤ 24 * Real.logb 2 ((f : ℝ) / 440) := by
    rw [← hfl]; exact Int.floor_le _
  have hlt : 24 * Real.logb 2 ((f : ℝ) / 440) < (L : ℝ) + 1 := by
    rw [← hfl]; exact Int.lt_floor_add_one _
  rw [round_eq]
  have hsplit : (69 : ℝ) + 12 * Real.logb 2 ((f : ℝ) / 440) + 1 / 2
      = ((69 : ℤ) : ℝ) + (12 * Real.logb 2 ((f : ℝ) / 440) + 1 / 2) := by
    push_cast; ring
  rw [hsplit, Int.floor_int_add]
  have hdiv : 2 * ((L + 1) / 2) ≤ L + 1 ∧ L + 1 ≤ 2 * ((L + 1) / 2) + 1 := by omega
  have hkey : ⌊12 * Real.logb 2 ((f : ℝ) / 440) + 1 / 2⌋ = (L + 1) / 2 := by
    rw [Int.floor_eq_iff]
    constructor
    · have h1 : ((2 * ((L + 1) / 2) : ℤ) : ℝ) ≤ (L : ℝ) + 1 := by exact_mod_cast hdiv.1
      push_cast at h1
      linarith
    · have h2 : ((L : ℝ)) + 1 ≤ ((2 * ((L + 1) / 2) : ℤ) : ℝ) + 1 := by exact_mod_cast hdiv.2
      push_cast at h2
      linarith
  rw [hkey]
  simp only [hz_to_midi_round, ← hL]

/-- C6. Note Quantizer correctness: `detect_notes` emits a symbol exactly for
the strictly positive pitches, in order (so its length is the number of voiced
frames), mapping each voiced frequency `f` to the note name of the MIDI number
`round (69 + 12·log2 (f/440))`; zero/invalid frames produce no placeholder. -/
theorem detect_notes_correct (pitches : List ℚ) :
    detect_notes pitches
        = (pitches.filter (fun p => decide (0 < p))).map
            (fun f => midi_to_note (hz_to_midi_round f))
    ∧ (detect_notes pitches).length = pitches.countP (fun p => decide (0 < p))
    ∧ ∀ f : ℚ, 0 < f →
        hz_to_midi_round f = round ((69 : ℝ) + 12 * Real.logb 2 ((f : ℝ) / 440)) := by
  refine ⟨?_, ?_, fun f hf => hz_to_midi_round_eq_round hf⟩
  · induction pitches with
    | nil => rfl
    | cons p ps ih =>
        by_cases hp : 0 < p
        · simp [detect_notes, List.filter_cons, hp, ih]
        · simp [detect_notes, List.filter_cons, hp, ih]
  · induction pitches with
    | nil => rfl
    | cons p ps ih =>
        by_cases hp : 0 < p
        · simp [detect_notes, List.countP_cons, hp, ih, Nat.add_comm]
        · simp [detect_notes, List.countP_cons, hp, ih]

/-- The C6 theorem applied at the concrete pitch track `[440, 0]`:
one voiced frame, quantized to `"A4"`, the silent frame skipped. -/
theorem detect_notes_correct_witness :
    ((0 : ℚ) < 440)
    ∧ detect_notes [(440 : ℚ), 0]
        = (([(440 : ℚ), 0].filter (fun p => decide (0 < p))).map
            (fun f => midi_to_note (hz_to_midi_round f)))
    ∧ (detect_notes [(440 : ℚ), 0]).length
        = [(440 : ℚ), 0].countP (fun p => decide (0 < p))
    ∧ hz_to_midi_round 440 = round ((69 : ℝ) + 12 * Real.logb 2 (((440 : ℚ) : ℝ) / 440))
    ∧ detect_notes [(440 : ℚ), 0] = ["A4"] := by
  have h := detect_notes_correct [(440 : ℚ), 0]
  refine ⟨by norm_num, h.1, h.2.1, h.2.2 440 (by norm_num), ?_⟩
  have h440 : ((440 : ℚ) / 440) ^ 24 = 1 := by norm_num
  have hq1 : qlog2 1 = 0 := by simp [qlog2, nlog2, nlog2F]
  have hm : hz_to_midi_round 440 = 69 := by
    simp [hz_to_midi_round, h440, hq1]
  have e1 : detect_notes [(440 : ℚ), 0] = [midi_to_note (hz_to_midi_round 440)] := by
    simp only [detect_notes, if_pos (show (0 : ℚ) < 440 by norm_num),
      if_neg (show ¬ (0 : ℚ) < 0 by norm_num)]
  rw [e1, hm]
  rfl

/-- A single-row UPDATE is visible through a subsequent SELECT of the same id. -/
theorem dbGet_dbSet (db : DB) (sid : String) (f : Submission → Submission) :
    dbGet (dbSet db sid f) sid = (dbGet db sid).map f := by
  induction db with
  | nil => rfl
  | cons kv rest ih =>
      obtain ⟨k, v⟩ := kv
      by_cases hk : k = sid
      · subst hk
        have h1 : dbSet ((k, v) :: rest) k f = (k, f v) :: dbSet rest k f := by
          show (if k = k then (k, f v) else (k, v)) :: dbSet rest k f
              = (k, f v) :: dbSet rest k f
          rw [if_pos rfl]
        have h2 : dbGet ((k, f v) :: dbSet rest k f) k = some (f v) := by
          show (if k = k then some (f v) else dbGet (dbSet rest k f) k) = some (f v)
          rw [if_pos rfl]
        have h3 : dbGet ((k, v) :: rest) k = some v := by
          show (if k = k then some v else dbGet rest k) = some v
          rw [if_pos rfl]
        rw [h1, h2, h3]
        rfl
      · have h1 : dbSet ((k, v) :: rest) sid f = (k, v) :: dbSet rest sid f := by
          simp [dbSet, hk]
        have h2 : dbGet ((k, v) :: rest) sid = dbGet rest sid := by
          simp [dbGet, hk]
        have h3 : dbGet ((k, v) :: dbSet rest sid f) sid = dbGet (dbSet rest sid f) sid := by
          simp [dbGet, hk]
        rw [h1, h3, h2, ih]

/-- C5. Failure atomicity of analysis: whenever `analyze_audio` raises on an
existing submission, the stored row afterwards is the old row with only
`status := "failed"` and a refreshed `updated_at` — score, feedback,
created_at and ownership untouched — and the only committed status write of
the call is that single 'failed' one (no partial result persisted). -/
theorem analyze_audio_failure_atomic (db : DB) (sid : String) (sub : Submission)
    (ok : Bool) (now : ℕ) (e : String)
    (hsub : dbGet db sid = some sub)
    (herr : (analyze_audio db sid ok now).1 = Except.error e) :
    dbGet (analyze_audio db sid ok now).2.1 sid
      = some { sub with status := "failed", updated_at := some now }
    ∧ (analyze_audio db sid ok now).2.2 = ["failed"] := by
  cases ok
  · constructor
    · simp [analyze_audio, hsub, dbGet_dbSet]
    · simp [analyze_audio, hsub]
  · simp [analyze_audio, hsub] at herr

/-- The C5 theorem applied to the pending submission `"s1"` of `db0` with the
success-path UPDATE raising at time 7. -/
theorem analyze_audio_failure_atomic_witness :
    dbGet db0 "s1" = some sub0
    ∧ (analyze_audio db0 "s1" false 7).1
        = Except.error "Failed to analyze audio: update failed"
    ∧ dbGet (analyze_audio db0 "s1" false 7).2.1 "s1"
        = some { sub0 with status := "failed", updated_at := some 7 }
    ∧ (analyze_audio db0 "s1" false 7).2.2 = ["failed"] := by
  have h := analyze_audio_failure_atomic db0 "s1" sub0 false 7
    "Failed to analyze audio: update failed" rfl rfl
  exact ⟨rfl, rfl, h.1, h.2⟩

/-- C10. Constant analysis output: every successful `analyze_audio` call
returns the one fixed payload `analysis_result` (overall_score 87, detected
tempo 120, pitch accuracy percentage 85, the fixed feedback text, the fixed
three-element suggestion list), for any store, submission and time — hence any
two successful calls return equal results. -/
theorem analyze_audio_constant_result :
    (∀ (db : DB) (sid : String) (ok : Bool) (now : ℕ) (v : PyVal),
        (analyze_audio db sid ok now).1 = Except.ok v → v = analysis_result)
    ∧ (∀ (db₁ db₂ : DB) (sid₁ sid₂ : String) (ok₁ ok₂ : Bool) (now₁ now₂ : ℕ)
          (v₁ v₂ : PyVal),
        (analyze_audio db₁ sid₁ ok₁ now₁).1 = Except.ok v₁ →
        (analyze_audio db₂ sid₂ ok₂ now₂).1 = Except.ok v₂ → v₁ = v₂)
    ∧ pyGetInt analysis_result "overall_score" = some 87
    ∧ (pyGet analysis_result "tempo").bind (fun t => pyGet t "detected")
        = some (.int 120)
    ∧ (pyGet analysis_result "pitch_accuracy").bind (fun t => pyGet t "accuracy_percentage")
        = some (.int 85)
    ∧ pyGet analysis_result "feedback"
        = some (.str "Great job! Your timing is excellent. Focus on hitting the correct notes more consistently.")
    ∧ pyGet analysis_result "suggestions"
        = some (.list (plist
            [.str "Practice scales to improve finger positioning",
             .str "Use a metronome to maintain steady tempo",
             .str "Focus on the middle section where most errors occurred"])) := by
  have hconst : ∀ (db : DB) (sid : String) (ok : Bool) (now : ℕ) (v : PyVal),
      (analyze_audio db sid ok now).1 = Except.ok v → v = analysis_result := by
    intro db sid ok now v h
    cases hdb : dbGet db sid with
    | none => simp [analyze_audio, hdb] at h
    | some s =>
        cases ok with
        | true => simp [analyze_audio, hdb] at h; exact h.symm
        | false => simp [analyze_audio, hdb] at h
  refine ⟨hconst, ?_, rfl, rfl, rfl, rfl, rfl⟩
  intro db₁ db₂ sid₁ sid₂ ok₁ ok₂ now₁ now₂ v₁ v₂ h₁ h₂
  rw [hconst db₁ sid₁ ok₁ now₁ v₁ h₁, hconst db₂ sid₂ ok₂ now₂ v₂ h₂]

/-- The C10 theorem applied to two distinct stores, submissions, file paths and
times: both successful calls return the identical fixed payload. -/
theorem analyze_audio_constant_result_witness :
    (analyze_audio db0 "s1" true 5).1 = Except.ok analysis_result
    ∧ (analyze_audio (("s2", { sub0 with file_path := "other.mp3" }) :: db0) "s2" true 9).1
        = Except.ok analysis_result
    ∧ analysis_result = analysis_result := by
  refine ⟨rfl, rfl, ?_⟩
  exact analyze_audio_constant_result.2.1 db0
    (("s2", { sub0 with file_path := "other.mp3" }) :: db0) "s1" "s2" true true 5 9
    analysis_result analysis_result rfl rfl

/-- C4 counterexample: the claim "on analysis start the status is set to
'analyzing'" is false — an analyze call on the concrete pending submission
`"s1"` of `db0` commits exactly one status write, 'analyzed', and never writes
'analyzing'. -/
theorem analyze_audio_no_analyzing_counterexample :
    ¬ ∀ (db : DB) (sid : String) (sub : Submission) (ok : Bool) (now : ℕ),
        dbGet db sid = some sub → "analyzing" ∈ (analyze_audio db sid ok now).2.2 := by
  intro h
  have hmem := h db0 "s1" sub0 true 5 rfl
  have h2 : (analyze_audio db0 "s1" true 5).2.2 = ["analyzed"] := rfl
  rw [h2] at hmem
  exact absurd hmem (by decide)

/-- C4 amended. Lifecycle: a submission is created with status 'pending' at
upload; an analyze call commits exactly one status write — 'analyzed' exactly
when the call succeeds (persisting the payload and score 87), 'failed' exactly
when it raises — and never writes 'analyzing', so after the call an existing
submission's status is one of the terminal values; statuses written anywhere
stay inside {pending, analyzed, failed}. -/
theorem lifecycle_amended (db : DB) (sid : String) (ok : Bool) (now : ℕ) :
    ((analyze_audio db sid ok now).2.2 = ["analyzed"]
      ∨ (analyze_audio db sid ok now).2.2 = ["failed"])
    ∧ "analyzing" ∉ (analyze_audio db sid ok now).2.2
    ∧ (∀ v, (analyze_audio db sid ok now).1 = Except.ok v →
        (analyze_audio db sid ok now).2.2 = ["analyzed"]
        ∧ ∀ sub, dbGet db sid = some sub →
            dbGet (analyze_audio db sid ok now).2.1 sid
              = some { sub with status := "analyzed", feedback := some (pyStr analysis_result), score := some 87, updated_at := some now })
    ∧ (∀ e, (analyze_audio db sid ok now).1 = Except.error e →
        (analyze_audio db sid ok now).2.2 = ["failed"])
    ∧ (∀ sub, dbGet db sid = some sub →
        (dbGet (analyze_audio db sid ok now).2.1 sid).map Submission.status
            = some "analyzed"
        ∨ (dbGet (analyze_audio db sid ok now).2.1 sid).map Submission.status
            = some "failed")
    ∧ (∀ (tf : List String) (tmp fn u ex sid2 : String),
        (dbGet (upload_audio_file tf db tmp fn u ex sid2 true now).2.2 sid2).map
            Submission.status = some "pending") := by
  have hscore : pyGetInt analysis_result "overall_score" = some 87 := rfl
  cases hdb : dbGet db sid with
  | none =>
      cases ok with
      | true =>
          refine ⟨Or.inr (by simp [analyze_audio, hdb]), by simp [analyze_audio, hdb], ?_, ?_, ?_, ?_⟩
          · intro v hv; simp [analyze_audio, hdb] at hv
          · intro e _; simp [analyze_audio, hdb]
          · intro sub hsub; simp at hsub
          · intro tf tmp fn u ex sid2
            simp [upload_audio_file, dbGet]
      | false =>
          refine ⟨Or.inr (by simp [analyze_audio, hdb]), by simp [analyze_audio, hdb], ?_, ?_, ?_, ?_⟩
          · intro v hv; simp [analyze_audio, hdb] at hv
          · intro e _; simp [analyze_audio, hdb]
          · intro sub hsub; simp at hsub
          · intro tf tmp fn u ex sid2
            simp [upload_audio_file, dbGet]
  | some s =>
      cases ok with
      | true =>
          refine ⟨Or.inl (by simp [analyze_audio, hdb]), by simp [analyze_audio, hdb], ?_, ?_, ?_, ?_⟩
          · intro v _
            refine ⟨by simp [analyze_audio, hdb], ?_⟩
            intro sub hsub
            have : s = sub := Option.some.inj hsub
            subst this
            simp [analyze_audio, hdb, dbGet_dbSet, hscore]
          · intro e he; simp [analyze_audio, hdb] at he
          · intro sub hsub
            exact Or.inl (by simp [analyze_audio, hdb, dbGet_dbSet, hsub])
          · intro tf tmp fn u ex sid2
            simp [upload_audio_file, dbGet]
      | false =>
          refine ⟨Or.inr (by simp [analyze_audio, hdb]), by simp [analyze_audio, hdb], ?_, ?_, ?_, ?_⟩
          · intro v hv; simp [analyze_audio, hdb] at hv
          · intro e _; simp [analyze_audio, hdb]
          · intro sub hsub
            exact Or.inr (by simp [analyze_audio, hdb, dbGet_dbSet, hsub])
          · intro tf tmp fn u ex sid2
            simp [upload_audio_file, dbGet]

/-- The C4 amended theorem applied to the pending submission `"s1"` of `db0`
analyzed successfully at time 5, and an upload creating `"s2"`. -/
theorem lifecycle_amended_witness :
    (analyze_audio db0 "s1" true 5).2.2 = ["analyzed"]
    ∧ dbGet (analyze_audio db0 "s1" true 5).2.1 "s1"
        = some { sub0 with status := "analyzed", feedback := some (pyStr analysis_result), score := some 87, updated_at := some 5 }
    ∧ (dbGet (upload_audio_file [] db0 "tmp" "f.mp3" "u1" "e1" "s2" true 5).2.2 "s2").map
        Submission.status = some "pending" := by
  have h := lifecycle_amended db0 "s1" true 5
  exact ⟨(h.2.2.1 analysis_result rfl).1, (h.2.2.1 analysis_result rfl).2 sub0 rfl,
    h.2.2.2.2.2 [] "tmp" "f.mp3" "u1" "e1" "s2"⟩

/-- C7 counterexample: the claim "the scratch file is removed on every exit
path of the upload operation" is false — when the database INSERT raises, the
concrete call below leaves the scratch file `"tmp1"` behind. -/
theorem upload_cleanup_counterexample :
    ¬ ∀ (tempFiles : List String) (db : DB) (tmp fn u ex sid : String)
        (ok : Bool) (now : ℕ),
        (upload_audio_file tempFiles db tmp fn u ex sid ok now).2.1 = tempFiles := by
  intro h
  have := h [] [] "tmp1" "f.mp3" "u1" "e1" "s9" false 3
  simp [upload_audio_file] at this

/-- C7 amended. The scratch file is created unconditionally and removed only on
the success path (after the INSERT commits, which also creates the pending
record); when the INSERT raises, the call re-raises the normalized upload error
with the scratch file still on disk and the store unchanged. -/
theorem upload_cleanup_amended (tempFiles : List String) (db : DB)
    (tmp fn u ex sid : String) (now : ℕ) :
    (upload_audio_file tempFiles db tmp fn u ex sid true now).2.1 = tempFiles
    ∧ (dbGet (upload_audio_file tempFiles db tmp fn u ex sid true now).2.2 sid).map
        Submission.status = some "pending"
    ∧ (upload_audio_file tempFiles db tmp fn u ex sid false now).2.1 = tmp :: tempFiles
    ∧ (upload_audio_file tempFiles db tmp fn u ex sid false now).2.2 = db
    ∧ (upload_audio_file tempFiles db tmp fn u ex sid false now).1
        = Except.error "Failed to upload audio: insert failed" := by
  refine ⟨?_, ?_, rfl, rfl, rfl⟩
  · simp [upload_audio_file]
  · simp [upload_audio_file, dbGet]

/-- C8. Not-found and ownership mismatches do NOT surface as 404: the
endpoints raise `HTTPException(404, "Submission not found")` inside their
`try` blocks, the blanket `except Exception` catches it, and the client
receives `HTTPException(500, "404: Submission not found")` — an internal-error
outcome — both for a missing submission id and for a submission owned by a
different user, on the analyze and feedback endpoints alike. -/
theorem endpoint_not_found_is_500 :
    (analyze_audio_endpoint [] "u1" "missing" true 0).1
        = Except.error (500, "404: Submission not found")
    ∧ (analyze_audio_endpoint db0 "intruder" "s1" true 0).1
        = Except.error (500, "404: Submission not found")
    ∧ feedback_endpoint [] "u1" "missing"
        = Except.error (500, "404: Submission not found")
    ∧ feedback_endpoint db0 "intruder" "s1"
        = Except.error (500, "404: Submission not found") :=
  ⟨rfl, rfl, rfl, rfl⟩

set_option maxRecDepth 20000 in
/-- C3. Feedback round-trip is broken for analyzed submissions: analyzing the
pending submission `"s1"` succeeds and persists status 'analyzed' with
`feedback = str(analysis_result)` — a single-quoted Python repr that
`json.loads` rejects — so the subsequent feedback retrieval raises instead of
returning the payload; for a submission that is not yet analyzed the endpoint
does return the current status with "Analysis not yet complete". -/
theorem feedback_round_trip_code_bug :
    (analyze_audio db0 "s1" true 5).1 = Except.ok analysis_result
    ∧ (dbGet (analyze_audio db0 "s1" true 5).2.1 "s1").map Submission.status
        = some "analyzed"
    ∧ (dbGet (analyze_audio db0 "s1" true 5).2.1 "s1").bind Submission.feedback
        = some (pyStr analysis_result)
    ∧ json_loads (pyStr analysis_result) = none
    ∧ get_detailed_feedback (analyze_audio db0 "s1" true 5).2.1 "s1"
        = Except.error "Failed to get feedback: stored feedback is not valid JSON"
    ∧ get_detailed_feedback db0 "s1"
        = Except.ok (.notReady "pending" "Analysis not yet complete") :=
  ⟨rfl, rfl, rfl, rfl, rfl, rfl⟩

/-- C9 counterexample: the claim "at most one analysis is in flight at a time"
is false — under the scheduler that lets both calls perform their SELECT
before either UPDATE, both calls are in flight simultaneously. -/
theorem analysis_mutual_exclusion_counterexample :
    ¬ ∀ sched : List Bool, (runSched "s1" 5 sched (initSys db0)).overlap = false := by
  intro h
  have h2 := h [true, false]
  rw [show (runSched "s1" 5 [true, false] (initSys db0)).overlap = true from rfl] at h2
  exact absurd h2 (by decide)

/-- The interleaving invariant holds initially on `db0`. -/
theorem C9Inv_init : C9Inv (initSys db0) := by
  refine ⟨rfl, Or.inl ⟨rfl, rfl, rfl⟩, fun _ => rfl, fun _ => rfl, ?_, ?_, rfl⟩
  · exact fun hh => nomatch hh
  · exact fun hh => nomatch hh

/-- A single-row UPDATE leaves the row present. -/
theorem dbSet_isSome (db : DB) (sid : String) (f : Submission → Submission)
    (row : Submission) (h : dbGet db sid = some row) :
    (dbGet (dbSet db sid f) sid).isSome = true := by
  rw [dbGet_dbSet, h]; rfl

/-- After the terminal UPDATE of a successful analyze call the stored status is
'analyzed'. -/
theorem dbSet_status_analyzed (db : DB) (sid : String) (row : Submission)
    (h : dbGet db sid = some row) (now : ℕ) :
    Option.map Submission.status (dbGet (dbSet db sid (fun s =>
      { s with status := "analyzed", feedback := some (pyStr analysis_result),
               score := pyGetInt analysis_result "overall_score",
               updated_at := some now })) sid) = some "analyzed" := by
  rw [dbGet_dbSet, h]; rfl

/-- Unfolding: call A performs its SELECT. -/
theorem schedStep_fetch_A (now : ℕ) (db : DB) (fd d : Bool) (pb : ProcState)
    (wr : List String) (ov : Bool) :
    schedStep "s1" now ⟨db, ⟨false, fd, d⟩, pb, wr, ov⟩ true
      = ⟨db, ⟨true, (dbGet db "s1").isSome, d⟩, pb, wr ++ [],
         ov || (inFlight ⟨true, (dbGet db "s1").isSome, d⟩ && inFlight pb)⟩ := rfl

/-- Unfolding: call A performs its terminal UPDATE. -/
theorem schedStep_write_A (now : ℕ) (db : DB) (pb : ProcState)
    (wr : List String) (ov : Bool) :
    schedStep "s1" now ⟨db, ⟨true, true, false⟩, pb, wr, ov⟩ true
      = ⟨dbSet db "s1" (fun s =>
            { s with status := "analyzed", feedback := some (pyStr analysis_result),
                     score := pyGetInt analysis_result "overall_score",
                     updated_at := some now }),
         ⟨true, true, true⟩, pb, wr ++ ["analyzed"],
         ov || (inFlight ⟨true, true, true⟩ && inFlight pb)⟩ := rfl

/-- Unfolding: a finished call A takes no step. -/
theorem schedStep_done_A (now : ℕ) (db : DB) (fd : Bool) (pb : ProcState)
    (wr : List String) (ov : Bool) :
    schedStep "s1" now ⟨db, ⟨true, fd, true⟩, pb, wr, ov⟩ true
      = ⟨db, ⟨true, fd, true⟩, pb, wr ++ [],
         ov || (inFlight ⟨true, fd, true⟩ && inFlight pb)⟩ := rfl

/-- Unfolding: call B performs its SELECT. -/
theorem schedStep_fetch_B (now : ℕ) (db : DB) (fd d : Bool) (pa : ProcState)
    (wr : List String) (ov : Bool) :
    schedStep "s1" now ⟨db, pa, ⟨false, fd, d⟩, wr, ov⟩ false
      = ⟨db, pa, ⟨true, (dbGet db "s1").isSome, d⟩, wr ++ [],
         ov || (inFlight pa && inFlight ⟨true, (dbGet db "s1").isSome, d⟩)⟩ := rfl

/-- Unfolding: call B performs its terminal UPDATE. -/
theorem schedStep_write_B (now : ℕ) (db : DB) (pa : ProcState)
    (wr : List String) (ov : Bool) :
    schedStep "s1" now ⟨db, pa, ⟨true, true, false⟩, wr, ov⟩ false
      = ⟨dbSet db "s1" (fun s =>
            { s with status := "analyzed", feedback := some (pyStr analysis_result),
                     score := pyGetInt analysis_result "overall_score",
                     updated_at := some now }),
         pa, ⟨true, true, true⟩, wr ++ ["analyzed"],
         ov || (inFlight pa && inFlight ⟨true, true, true⟩)⟩ := rfl

/-- Unfolding: a finished call B takes no step. -/
theorem schedStep_done_B (now : ℕ) (db : DB) (fd : Bool) (pa : ProcState)
    (wr : List String) (ov : Bool) :
    schedStep "s1" now ⟨db, pa, ⟨true, fd, true⟩, wr, ov⟩ false
      = ⟨db, pa, ⟨true, fd, true⟩, wr ++ [],
         ov || (inFlight pa && inFlight ⟨true, fd, true⟩)⟩ := rfl

/-- The interleaving invariant is preserved by every scheduler step. -/
theorem C9Inv_step (now : ℕ) (sys : Sys) (pick : Bool) (h : C9Inv sys) :
    C9Inv (schedStep "s1" now sys pick) := by
  obtain ⟨db, pa, pb, wr, ov⟩ := sys
  obtain ⟨paf, pafd, pad⟩ := pa
  obtain ⟨pbf, pbfd, pbd⟩ := pb
  obtain ⟨hsome, hstat, hpaf, hpbf, hpafd, hpbfd, hwr⟩ := h
  replace hsome : (dbGet db "s1").isSome = true := hsome
  replace hstat : Option.map Submission.status (dbGet db "s1") = some "pending"
        ∧ pad = false ∧ pbd = false
      ∨ Option.map Submission.status (dbGet db "s1") = some "analyzed"
        ∧ (pad = true ∨ pbd = true) := hstat
  replace hpaf : paf = false → pad = false := hpaf
  replace hpbf : pbf = false → pbd = false := hpbf
  replace hpafd : paf = true → pafd = true := hpafd
  replace hpbfd : pbf = true → pbfd = true := hpbfd
  replace hwr : wr = List.replicate
      ((if pad then 1 else 0) + (if pbd then 1 else 0)) "analyzed" := hwr
  obtain ⟨row, hrow⟩ := Option.isSome_iff_exists.mp hsome
  cases pick with
  | true =>
      cases paf with
      | false =>
          have hd : pad = false := hpaf rfl
          subst hd
          rw [schedStep_fetch_A]
          dsimp only [C9Inv]
          refine ⟨hsome, hstat, fun _ => rfl, hpbf, fun _ => hsome, hpbfd, ?_⟩
          rw [List.append_nil]
          exact hwr
      | true =>
          cases pad with
          | true =>
              rw [schedStep_done_A]
              dsimp only [C9Inv]
              refine ⟨hsome, hstat, fun hh => hh, hpbf, hpafd, hpbfd, ?_⟩
              rw [List.append_nil]
              exact hwr
          | false =>
              have hfd : pafd = true := hpafd rfl
              subst hfd
              rw [schedStep_write_A]
              dsimp only [C9Inv]
              refine ⟨dbSet_isSome db "s1" _ row hrow,
                Or.inr ⟨dbSet_status_analyzed db "s1" row hrow now, Or.inl rfl⟩,
                fun hh => hh, hpbf, fun _ => rfl, hpbfd, ?_⟩
              rw [hwr]
              cases pbd <;> rfl
  | false =>
      cases pbf with
      | false =>
          have hd : pbd = false := hpbf rfl
          subst hd
          rw [schedStep_fetch_B]
          dsimp only [C9Inv]
          refine ⟨hsome, hstat, hpaf, fun _ => rfl, hpafd, fun _ => hsome, ?_⟩
          rw [List.append_nil]
          exact hwr
      | true =>
          cases pbd with
          | true =>
              rw [schedStep_done_B]
              dsimp only [C9Inv]
              refine ⟨hsome, hstat, hpaf, fun hh => hh, hpafd, hpbfd, ?_⟩
              rw [List.append_nil]
              exact hwr
          | false =>
              have hfd : pbfd = true := hpbfd rfl
              subst hfd
              rw [schedStep_write_B]
              dsimp only [C9Inv]
              refine ⟨dbSet_isSome db "s1" _ row hrow,
                Or.inr ⟨dbSet_status_analyzed db "s1" row hrow now, Or.inr rfl⟩,
                hpaf, fun hh => hh, hpafd, fun _ => rfl, ?_⟩
              rw [hwr]
              cases pad <;> rfl

/-- The interleaving invariant holds after every schedule. -/
theorem C9Inv_run (now : ℕ) (sched : List Bool) :
    C9Inv (runSched "s1" now sched (initSys db0)) := by
  suffices h : ∀ sys, C9Inv sys → C9Inv (runSched "s1" now sched sys) by
    exact h _ C9Inv_init
  induction sched with
  | nil => exact fun sys h => h
  | cons b bs ih => exact fun sys h => ih _ (C9Inv_step now sys b h)

/-- C9 amended. The code enforces no per-submission mutual exclusion: under
every schedule in which both concurrent analyze calls on the existing
submission `"s1"` complete, each call durably commits its own terminal status
write — two 'analyzed' transitions, not one, with neither call rejected
(no `AnalysisInProgressError` exists in the code) — the final stored status is
'analyzed' (each statement is individually atomic, the later write wins), and
there is a schedule under which both calls are in flight simultaneously. -/
theorem analysis_no_mutual_exclusion_amended (now : ℕ) (sched : List Bool)
    (ha : (runSched "s1" now sched (initSys db0)).pa.done = true)
    (hb : (runSched "s1" now sched (initSys db0)).pb.done = true) :
    (runSched "s1" now sched (initSys db0)).writes = ["analyzed", "analyzed"]
    ∧ (dbGet (runSched "s1" now sched (initSys db0)).db "s1").map Submission.status
        = some "analyzed"
    ∧ (runSched "s1" 5 [true, false] (initSys db0)).overlap = true := by
  obtain ⟨hsome, hstat, hpaf, hpbf, hpafd, hpbfd, hwr⟩ := C9Inv_run now sched
  refine ⟨?_, ?_, rfl⟩
  · rw [hwr, ha, hb]
    rfl
  · rcases hstat with ⟨hp, hpa, hpb⟩ | ⟨hstat2, _⟩
    · exact absurd (ha.symm.trans hpa) (by decide)
    · exact hstat2

/-- The C9 amended theorem applied to the serialized schedule A,A,B,B: both
calls complete and two 'analyzed' writes are durably recorded. -/
theorem analysis_no_mutual_exclusion_amended_witness :
    (runSched "s1" 5 [true, true, false, false] (initSys db0)).pa.done = true
    ∧ (runSched "s1" 5 [true, true, false, false] (initSys db0)).pb.done = true
    ∧ (runSched "s1" 5 [true, true, false, false] (initSys db0)).writes
        = ["analyzed", "analyzed"] := by
  refine ⟨rfl, rfl, ?_⟩
  exact (analysis_no_mutual_exclusion_amended 5 [true, true, false, false] rfl rfl).1
